import Mathlib

/-!
Shallow embedding of `src/i3bar/src/draw_util.c` (i3bar drawing utilities).

Modelling conventions:
* A C string is a `List Char` holding the characters before the terminating
  null byte (so `strlen` is `List.length`; universal theorems carry the
  hypothesis that no interior null occurs).  Reading the byte at an index is
  `cstrGet`: in-bounds indices read the list, the index equal to the length
  reads the terminator, and indices past it read from an `oob` oracle that
  stands for whatever bytes follow the string in memory (out-of-bounds reads
  are modelled as returning arbitrary, non-trapping values).
* C `double` values are modelled as rationals.  The channel values produced
  by `draw_util_hex_to_color` are small integers divided by `255`, and the
  claims compare them with `0` and `1`; those comparisons are exact in IEEE
  double as well, so the rational model is faithful for them.
* External functions (`get_colorpixel` from libi3, XCB request ids and
  status) are oracle parameters.
* A process that may call `exit` is modelled with `ProcResult`.
-/

/-- Byte at index `i` of the C string whose contents are `s`: characters of
`s` in bounds, the null terminator at index `s.length`, and bytes from the
surrounding memory (oracle `oob`) past it. -/
def cstrGet (s : List Char) (oob : Nat → Char) (i : Nat) : Char :=
  if h : i < s.length then s.get ⟨i, h⟩
  else if i = s.length then Char.ofNat 0
  else oob i

/-- Value of a hexadecimal digit character, as tested by `strtol` with base
16 (`0`-`9`, `a`-`f`, `A`-`F`); `none` for any other character. -/
def hexVal (c : Char) : Option Nat :=
  if 48 ≤ c.toNat ∧ c.toNat ≤ 57 then some (c.toNat - 48)
  else if 97 ≤ c.toNat ∧ c.toNat ≤ 102 then some (c.toNat - 87)
  else if 65 ≤ c.toNat ∧ c.toNat ≤ 70 then some (c.toNat - 55)
  else none

/-- The characters `isspace` accepts in the C locale, which `strtol` skips
before the number. -/
def isSpaceC (c : Char) : Bool :=
  c.toNat = 32 ∨ c.toNat = 9 ∨ c.toNat = 10 ∨ c.toNat = 11 ∨
    c.toNat = 12 ∨ c.toNat = 13

/-- Accumulate consecutive hexadecimal digits, stopping at the first
non-digit, exactly as the digit-consuming loop of `strtol` does. -/
def parseHexDigits : List Char → Nat → Nat
  | [], acc => acc
  | c :: rest, acc =>
    match hexVal c with
    | some d => parseHexDigits rest (acc * 16 + d)
    | none => acc

/-- Drop a leading `0x`/`0X`, as `strtol` with base 16 does.  When no digit
follows the prefix the real `strtol` instead consumes just the `0`; both
readings give the value `0`, so the returned value is unchanged. -/
def strip0x (s : List Char) : List Char :=
  match s with
  | a :: b :: rest => if a = '0' ∧ (b = 'x' ∨ b = 'X') then rest else s
  | _ => s

/-- `strtol(s, NULL, 16)` on a short string: skip C-locale whitespace, read
an optional sign, drop an optional `0x` prefix, and accumulate hexadecimal
digits until the first non-digit (value `0` if there is none).  The groups
built by `draw_util_hex_to_color` have at most two characters, so no
overflow clamping is needed. -/
def strtolHex (s : List Char) : Int :=
  match s.dropWhile isSpaceC with
  | [] => 0
  | c :: rest =>
    if c = '-' then -(parseHexDigits (strip0x rest) 0 : Int)
    else if c = '+' then (parseHexDigits (strip0x rest) 0 : Int)
    else (parseHexDigits (strip0x (c :: rest)) 0 : Int)

/-- The two-character group arrays `{a, b, '\0'}` of
`draw_util_hex_to_color`, read back as a C string: a null in the first or
second slot terminates it early. -/
def cstr2 (a b : Char) : List Char :=
  if a = Char.ofNat 0 then []
  else if b = Char.ofNat 0 then [a]
  else [a, b]

/-- `color_t` from i3bar's `common.h` as used by `draw_util.c`: four
normalized channels (doubles, modelled as rationals) and the backend-native
pixel value. -/
structure color_t where
  red : ℚ
  green : ℚ
  blue : ℚ
  alpha : ℚ
  colorpixel : Nat
  deriving DecidableEq

/-- `draw_util_hex_to_color`: parse `#rrggbb` / `#rrggbbaa`.  When
`strlen(color) == strlen("#rrggbbaa")`, i.e. 9, the alpha group is taken
from characters 7 and 8, otherwise it is `"FF"`.  Each two-character group
is parsed with `strtol(…, NULL, 16)` and divided by 255.0; the pixel field
comes from libi3's `get_colorpixel`, an external function taken here as the
oracle parameter `get_colorpixel`. -/
def draw_util_hex_to_color (get_colorpixel : List Char → Nat)
    (color : List Char) (oob : Nat → Char) : color_t :=
  let a0 := if color.length = 9 then cstrGet color oob 7 else 'F'
  let a1 := if color.length = 9 then cstrGet color oob 8 else 'F'
  { red := (strtolHex (cstr2 (cstrGet color oob 1) (cstrGet color oob 2)) : ℚ) / 255
    green := (strtolHex (cstr2 (cstrGet color oob 3) (cstrGet color oob 4)) : ℚ) / 255
    blue := (strtolHex (cstr2 (cstrGet color oob 5) (cstrGet color oob 6)) : ℚ) / 255
    alpha := (strtolHex (cstr2 a0 a1) : ℚ) / 255
    colorpixel := get_colorpixel color }

/-- Result of running a piece of code that may terminate the whole process:
either a normal result or a process exit with the given status. -/
inductive ProcResult (α : Type) where
  | ok : α → ProcResult α
  | exited : Nat → ProcResult α
  deriving DecidableEq

/-- `surface_t` from i3bar's `common.h` as used by `draw_util.c`: the
drawable id, the graphics-context id, the stored width and height (C
`int`s), and the cairo handles that are populated only in the
`I3BAR_CAIRO` build. -/
structure surface_t where
  id : Nat
  gc : Nat
  width : Int
  height : Int
  surface : Nat
  cr : Nat
  deriving DecidableEq

/-- `draw_util_surface_init`: store the drawable, width and height, obtain
a fresh graphics-context id (`xcb_generate_id`, oracle `gen_id`) and issue
a checked `xcb_create_gc`; if `xcb_request_failed` reports failure (oracle
`gc_failed`) the process exits with `EXIT_FAILURE` (status 1).  In the
`I3BAR_CAIRO` build (`cairoBuild = true`) the cairo surface and context are
then created (oracles `c_surface`, `c_cr`). -/
def draw_util_surface_init (cairoBuild : Bool) (gen_id : Nat)
    (gc_failed : Bool) (c_surface c_cr : Nat) (s : surface_t)
    (drawable : Nat) (width height : Int) : ProcResult surface_t :=
  let s1 : surface_t :=
    { s with id := drawable, width := width, height := height, gc := gen_id }
  if gc_failed then ProcResult.exited 1
  else ProcResult.ok
    (if cairoBuild then { s1 with surface := c_surface, cr := c_cr } else s1)

/-- The contents of a drawable, one value per integer pixel coordinate.
For the XCB backend the values are 32-bit pixel values; the definitions are
generic in the value type. -/
def Pixmap (α : Type) : Type := Int × Int → α

/-- Truncation of a rational toward zero, the value-changing step of a C
double-to-integer cast. -/
def ratTrunc (q : ℚ) : Int :=
  if 0 ≤ q then ⌊q⌋ else ⌈q⌉

/-- Reduce an integer modulo 2^16 into the signed 16-bit range
[-32768, 32767], as storing it into an `int16_t` does on the two's
complement targets this code runs on. -/
def wrapI16 (z : Int) : Int :=
  (z + 32768) % 65536 - 32768

/-- Reduce an integer modulo 2^16 into the unsigned 16-bit range
[0, 65535], the C-defined conversion to `uint16_t`. -/
def wrapU16 (z : Int) : Int :=
  z % 65536

/-- C cast of a `double` to `int16_t`: truncate toward zero, then wrap into
the signed 16-bit range (the behaviour of the two's complement targets this
code is built for). -/
def i16ofRat (q : ℚ) : Int := wrapI16 (ratTrunc q)

/-- C cast of a `double` to `uint16_t`: truncate toward zero, then reduce
modulo 2^16. -/
def u16ofRat (q : ℚ) : Int := wrapU16 (ratTrunc q)

/-- Pixel semantics of `xcb_poly_fill_rectangle` with a single rectangle:
every pixel inside the rectangle takes the graphics context's foreground
value, every other pixel is unchanged. -/
def xcb_fill_rect (p : Pixmap α) (x y w h : Int) (v : α) : Pixmap α :=
  fun q =>
    if x ≤ q.1 ∧ q.1 < x + w ∧ y ≤ q.2 ∧ q.2 < y + h then v else p q

/-- Pixel semantics of `xcb_copy_area`: pixels of the destination rectangle
receive the corresponding source pixels, all others are unchanged. -/
def xcb_copy_area (src dest : Pixmap α) (sx sy dx dy w h : Int) : Pixmap α :=
  fun q =>
    if dx ≤ q.1 ∧ q.1 < dx + w ∧ dy ≤ q.2 ∧ q.2 < dy + h then
      src (sx + (q.1 - dx), sy + (q.2 - dy))
    else dest q

/-- `draw_util_clear_surface`, XCB backend: `draw_util_set_source_color`
sets the graphics context's foreground to `color.colorpixel`, and the
rectangle `{0, 0, surface->width, surface->height}` is filled; the `int`
width and height are stored into the `uint16_t` rectangle fields, which
reduces them modulo 2^16. -/
def draw_util_clear_surface_xcb (s : surface_t) (color : color_t)
    (p : Pixmap Nat) : Pixmap Nat :=
  xcb_fill_rect p 0 0 (wrapU16 s.width) (wrapU16 s.height) color.colorpixel

/-- `draw_util_rectangle`, XCB backend: fill the rectangle `{x, y, w, h}`
with the color's pixel value; the `double` arguments are converted to the
`int16_t`/`uint16_t` fields of `xcb_rectangle_t`. -/
def draw_util_rectangle_xcb (_s : surface_t) (color : color_t)
    (x y w h : ℚ) (p : Pixmap Nat) : Pixmap Nat :=
  xcb_fill_rect p (i16ofRat x) (i16ofRat y) (u16ofRat w) (u16ofRat h)
    color.colorpixel

/-- `draw_util_copy_surface`, XCB backend: the `double` offsets are cast to
`int16_t` and the width and height to `uint16_t`, then `xcb_copy_area` is
issued with the cast values. -/
def draw_util_copy_surface_xcb (src dest : Pixmap α)
    (src_x src_y dest_x dest_y width height : ℚ) : Pixmap α :=
  xcb_copy_area src dest (i16ofRat src_x) (i16ofRat src_y)
    (i16ofRat dest_x) (i16ofRat dest_y) (u16ofRat width) (u16ofRat height)

/-- `draw_util_clear_surface`, cairo backend, idealized to the integer
pixel grid: `cairo_paint` with the `SOURCE` operator replaces every pixel
of the surface's extent (the width and height the surface was created
with) by the source color value. -/
def draw_util_clear_surface_cairo (s : surface_t) (v : α)
    (p : Pixmap α) : Pixmap α :=
  fun q =>
    if 0 ≤ q.1 ∧ q.1 < s.width ∧ 0 ≤ q.2 ∧ q.2 < s.height then v else p q

/-- `draw_util_copy_surface`, cairo backend, idealized to the integer pixel
grid (parameters restricted to integers, where cairo's exact geometry and
pixel sampling coincide with the grid): the source surface is placed with
its origin at `(dest_x - src_x, src_y)` — the offsets the code passes to
`cairo_set_source_surface` — and the rectangle
`(dest_x, dest_y, width, height)` is filled from it with the `SOURCE`
operator, so a destination pixel `q` inside the rectangle receives source
pixel `(q.1 - (dest_x - src_x), q.2 - src_y)`. -/
def draw_util_copy_surface_cairo (src dest : Pixmap α)
    (src_x src_y dest_x dest_y width height : Int) : Pixmap α :=
  fun q =>
    if dest_x ≤ q.1 ∧ q.1 < dest_x + width ∧
        dest_y ≤ q.2 ∧ q.2 < dest_y + height then
      src (q.1 - (dest_x - src_x), q.2 - src_y)
    else dest q

theorem hex_to_color_red_def (gp : List Char → Nat) (s : List Char)
    (oob : Nat → Char) :
    (draw_util_hex_to_color gp s oob).red =
      (strtolHex (cstr2 (cstrGet s oob 1) (cstrGet s oob 2)) : ℚ) / 255 := rfl

theorem hex_to_color_green_def (gp : List Char → Nat) (s : List Char)
    (oob : Nat → Char) :
    (draw_util_hex_to_color gp s oob).green =
      (strtolHex (cstr2 (cstrGet s oob 3) (cstrGet s oob 4)) : ℚ) / 255 := rfl

theorem hex_to_color_blue_def (gp : List Char → Nat) (s : List Char)
    (oob : Nat → Char) :
    (draw_util_hex_to_color gp s oob).blue =
      (strtolHex (cstr2 (cstrGet s oob 5) (cstrGet s oob 6)) : ℚ) / 255 := rfl

theorem hex_to_color_alpha_def (gp : List Char → Nat) (s : List Char)
    (oob : Nat → Char) :
    (draw_util_hex_to_color gp s oob).alpha =
      (strtolHex (cstr2 (if s.length = 9 then cstrGet s oob 7 else 'F')
        (if s.length = 9 then cstrGet s oob 8 else 'F')) : ℚ) / 255 := rfl

theorem strtol_div255_eq_zero (g : List Char) (h : strtolHex g = 0) :
    (strtolHex g : ℚ) / 255 = 0 := by
  rw [h]; norm_num

theorem strtol_div255_eq_one (g : List Char) (h : strtolHex g = 255) :
    (strtolHex g : ℚ) / 255 = 1 := by
  rw [h]; norm_num

/-- Claim C1: `hex_to_color` maps `"#000000"` to the color with red, green
and blue channels 0 and alpha 1, and `"#ffffffff"` to the color with all
four channels 1, for every `get_colorpixel` oracle and every contents of
the memory beyond the string. -/
theorem hex_to_color_black_and_white (gp : List Char → Nat)
    (oob : Nat → Char) :
    ((draw_util_hex_to_color gp ['#', '0', '0', '0', '0', '0', '0'] oob).red = 0 ∧
      (draw_util_hex_to_color gp ['#', '0', '0', '0', '0', '0', '0'] oob).green = 0 ∧
      (draw_util_hex_to_color gp ['#', '0', '0', '0', '0', '0', '0'] oob).blue = 0 ∧
      (draw_util_hex_to_color gp ['#', '0', '0', '0', '0', '0', '0'] oob).alpha = 1) ∧
    ((draw_util_hex_to_color gp ['#', 'f', 'f', 'f', 'f', 'f', 'f', 'f', 'f'] oob).red = 1 ∧
      (draw_util_hex_to_color gp ['#', 'f', 'f', 'f', 'f', 'f', 'f', 'f', 'f'] oob).green = 1 ∧
      (draw_util_hex_to_color gp ['#', 'f', 'f', 'f', 'f', 'f', 'f', 'f', 'f'] oob).blue = 1 ∧
      (draw_util_hex_to_color gp ['#', 'f', 'f', 'f', 'f', 'f', 'f', 'f', 'f'] oob).alpha = 1) :=
  ⟨⟨strtol_div255_eq_zero (cstr2 '0' '0') (by decide),
      strtol_div255_eq_zero (cstr2 '0' '0') (by decide),
      strtol_div255_eq_zero (cstr2 '0' '0') (by decide),
      strtol_div255_eq_one (cstr2 'F' 'F') (by decide)⟩,
    strtol_div255_eq_one (cstr2 'f' 'f') (by decide),
    strtol_div255_eq_one (cstr2 'f' 'f') (by decide),
    strtol_div255_eq_one (cstr2 'f' 'f') (by decide),
    strtol_div255_eq_one (cstr2 'f' 'f') (by decide)⟩

/-- Claim C4: `hex_to_color` is total and never signals an error: for every
input string, every memory beyond it and every `get_colorpixel` oracle it
returns a color value whose channels are integers divided by 255 — on
malformed input this is silently a garbage value, not an error. -/
theorem hex_to_color_total (gp : List Char → Nat) (s : List Char)
    (oob : Nat → Char) :
    ∃ z1 z2 z3 z4 : ℤ,
      draw_util_hex_to_color gp s oob =
        { red := (z1 : ℚ) / 255, green := (z2 : ℚ) / 255,
          blue := (z3 : ℚ) / 255, alpha := (z4 : ℚ) / 255,
          colorpixel := gp s } :=
  ⟨strtolHex (cstr2 (cstrGet s oob 1) (cstrGet s oob 2)),
    strtolHex (cstr2 (cstrGet s oob 3) (cstrGet s oob 4)),
    strtolHex (cstr2 (cstrGet s oob 5) (cstrGet s oob 6)),
    strtolHex (cstr2 (if s.length = 9 then cstrGet s oob 7 else 'F')
      (if s.length = 9 then cstrGet s oob 8 else 'F')), rfl⟩

theorem hexVal_le (c : Char) (d : Nat) (h : hexVal c = some d) : d ≤ 15 := by
  unfold hexVal at h
  split_ifs at h <;> simp_all <;> omega

theorem hexVal_toNat_range (c : Char) (d : Nat) (h : hexVal c = some d) :
    (48 ≤ c.toNat ∧ c.toNat ≤ 57) ∨ (97 ≤ c.toNat ∧ c.toNat ≤ 102) ∨
      (65 ≤ c.toNat ∧ c.toNat ≤ 70) := by
  unfold hexVal at h
  split_ifs at h <;> tauto

theorem parseHexDigits_one_le (a : Char) (acc : Nat) :
    parseHexDigits [a] acc ≤ 16 * acc + 15 := by
  rcases h : hexVal a with _ | d
  · simp only [parseHexDigits, h]
    omega
  · have hd := hexVal_le a d h
    simp only [parseHexDigits, h]
    omega

theorem parseHexDigits_two_le (a b : Char) :
    parseHexDigits [a, b] 0 ≤ 255 := by
  rcases h : hexVal a with _ | d
  · simp only [parseHexDigits, h]
    omega
  · have hd := hexVal_le a d h
    have hb := parseHexDigits_one_le b (0 * 16 + d)
    simp only [parseHexDigits, h] at hb ⊢
    omega

theorem strtolHex_cons (s : List Char) (c : Char) (rest : List Char)
    (h : s.dropWhile isSpaceC = c :: rest) :
    strtolHex s =
      if c = '-' then -(parseHexDigits (strip0x rest) 0 : Int)
      else if c = '+' then (parseHexDigits (strip0x rest) 0 : Int)
      else (parseHexDigits (strip0x (c :: rest)) 0 : Int) := by
  unfold strtolHex
  rw [h]

theorem strtolHex_of_dropWhile_nil (s : List Char)
    (h : s.dropWhile isSpaceC = []) : strtolHex s = 0 := by
  unfold strtolHex
  rw [h]

theorem strtolHex_nonneg (s : List Char) (h : ∀ c ∈ s, c ≠ '-') :
    0 ≤ strtolHex s := by
  rcases hd : s.dropWhile isSpaceC with _ | ⟨c, rest⟩
  · rw [strtolHex_of_dropWhile_nil s hd]
  · have hc : c ∈ s := (List.dropWhile_sublist isSpaceC).mem (hd ▸ List.mem_cons_self c rest)
    rw [strtolHex_cons s c rest hd, if_neg (h c hc)]
    split
    · exact Int.natCast_nonneg _
    · exact Int.natCast_nonneg _

theorem strip0x_length_le (s : List Char) : (strip0x s).length ≤ s.length := by
  rcases s with _ | ⟨a, _ | ⟨b, rest⟩⟩
  · exact le_refl _
  · exact le_refl _
  · simp only [strip0x]
    split_ifs
    · simp only [List.length_cons]
      omega
    · exact le_refl _

theorem parseHexDigits_le_255_of_short (l : List Char) (h : l.length ≤ 2) :
    parseHexDigits l 0 ≤ 255 := by
  rcases l with _ | ⟨a, _ | ⟨b, rest⟩⟩
  · simp [parseHexDigits]
  · have := parseHexDigits_one_le a 0
    omega
  · rcases rest with _ | _
    · exact parseHexDigits_two_le a b
    · simp at h

theorem strtolHex_le_255 (s : List Char) (hlen : s.length ≤ 2) :
    strtolHex s ≤ 255 := by
  have hdl : (s.dropWhile isSpaceC).length ≤ 2 :=
    le_trans (List.Sublist.length_le (List.dropWhile_sublist isSpaceC)) hlen
  rcases hd : s.dropWhile isSpaceC with _ | ⟨c, rest⟩
  · rw [strtolHex_of_dropWhile_nil s hd]
    omega
  · rw [hd] at hdl
    simp at hdl
    have hrest : (strip0x rest).length ≤ 1 := le_trans (strip0x_length_le rest) hdl
    have hfull : (strip0x (c :: rest)).length ≤ 2 :=
      le_trans (strip0x_length_le (c :: rest)) (by simpa using hdl)
    rw [strtolHex_cons s c rest hd]
    split
    · have h0 : 0 ≤ (parseHexDigits (strip0x rest) 0 : Int) := Int.natCast_nonneg _
      linarith
    · split
      · have := parseHexDigits_le_255_of_short (strip0x rest) (by omega)
        exact_mod_cast this
      · have := parseHexDigits_le_255_of_short (strip0x (c :: rest)) hfull
        exact_mod_cast this

theorem cstr2_length_le (a b : Char) : (cstr2 a b).length ≤ 2 := by
  unfold cstr2
  split_ifs <;> simp

theorem strtolHex_group_bounds (a b : Char) (ha : a ≠ '-') (hb : b ≠ '-') :
    0 ≤ strtolHex (cstr2 a b) ∧ strtolHex (cstr2 a b) ≤ 255 := by
  constructor
  · apply strtolHex_nonneg
    intro c hc
    unfold cstr2 at hc
    split_ifs at hc <;> simp at hc
    · subst hc
      exact ha
    · rcases hc with hc | hc
      · subst hc
        exact ha
      · subst hc
        exact hb
  · exact strtolHex_le_255 _ (cstr2_length_le a b)

theorem strtol_div255_mem_unit (g : List Char) (h0 : 0 ≤ strtolHex g)
    (h255 : strtolHex g ≤ 255) :
    0 ≤ (strtolHex g : ℚ) / 255 ∧ (strtolHex g : ℚ) / 255 ≤ 1 := by
  constructor
  · apply div_nonneg _ (by norm_num)
    exact_mod_cast h0
  · rw [div_le_one (by norm_num)]
    exact_mod_cast h255

theorem hexVal_char_facts (c : Char) (d : Nat) (h : hexVal c = some d) :
    c ≠ Char.ofNat 0 ∧ isSpaceC c = false ∧ c ≠ '-' ∧ c ≠ '+' ∧
      c ≠ 'x' ∧ c ≠ 'X' := by
  have hr := hexVal_toNat_range c d h
  refine ⟨fun hc => ?_, ?_, fun hc => ?_, fun hc => ?_, fun hc => ?_,
    fun hc => ?_⟩
  · subst hc
    exact absurd hr (by decide)
  · rcases hr with ⟨h1, h2⟩ | ⟨h1, h2⟩ | ⟨h1, h2⟩ <;> simp [isSpaceC] <;> omega
  · subst hc
    exact absurd hr (by decide)
  · subst hc
    exact absurd hr (by decide)
  · subst hc
    exact absurd hr (by decide)
  · subst hc
    exact absurd hr (by decide)

theorem strtolHex_two_digits (a b : Char) (d1 d2 : Nat)
    (h1 : hexVal a = some d1) (h2 : hexVal b = some d2) :
    strtolHex (cstr2 a b) = 16 * d1 + d2 := by
  obtain ⟨ha0, hasp, ham, hap, _, _⟩ := hexVal_char_facts a d1 h1
  obtain ⟨hb0, _, _, _, hbx, hbX⟩ := hexVal_char_facts b d2 h2
  have hc2 : cstr2 a b = [a, b] := by
    unfold cstr2
    rw [if_neg ha0, if_neg hb0]
  have hdw : ([a, b] : List Char).dropWhile isSpaceC = a :: [b] := by
    rw [List.dropWhile_cons]
    simp [hasp]
  rw [hc2, strtolHex_cons _ _ _ hdw, if_neg ham, if_neg hap]
  have hstrip : strip0x (a :: [b]) = [a, b] := by
    simp only [strip0x]
    rw [if_neg]
    rintro ⟨-, hb⟩
    rcases hb with hb | hb
    · exact hbx hb
    · exact hbX hb
  rw [hstrip]
  simp only [parseHexDigits, h1, h2]
  push_cast
  ring

/-- Claim C2: for a 9-character input whose characters 7 and 8 are hex
digits, the alpha channel is the value of those two digits divided by 255;
for every input whose length is not 9 (the 7-character `#rrggbb` form, any
8-character form, and anything else) the alpha channel defaults to 1. -/
theorem hex_to_color_alpha_parsing (gp : List Char → Nat) (s : List Char)
    (oob : Nat → Char) (_hnull : Char.ofNat 0 ∉ s) :
    (∀ d7 d8 : Nat, s.length = 9 → hexVal (cstrGet s oob 7) = some d7 →
      hexVal (cstrGet s oob 8) = some d8 →
      (draw_util_hex_to_color gp s oob).alpha = ((16 * d7 + d8 : ℕ) : ℚ) / 255) ∧
    (s.length ≠ 9 → (draw_util_hex_to_color gp s oob).alpha = 1) := by
  constructor
  · intro d7 d8 h9 h7 h8
    rw [hex_to_color_alpha_def, if_pos h9, if_pos h9,
      strtolHex_two_digits _ _ _ _ h7 h8]
    push_cast
    ring
  · intro h9
    rw [hex_to_color_alpha_def, if_neg h9, if_neg h9]
    exact strtol_div255_eq_one (cstr2 'F' 'F') (by decide)

theorem hex_to_color_alpha_parsing_witness :
    (draw_util_hex_to_color (fun _ => 0)
      ['#', '1', '2', '3', '4', '5', '6', 'a', 'b'] (fun _ => 'z')).alpha =
      ((16 * 10 + 11 : ℕ) : ℚ) / 255 ∧
    (draw_util_hex_to_color (fun _ => 0)
      ['#', '1', '2', '3', '4', '5', '6'] (fun _ => 'z')).alpha = 1 :=
  ⟨(hex_to_color_alpha_parsing (fun _ => 0) _ (fun _ => 'z') (by decide)).1
      10 11 (by decide) (by decide) (by decide),
    (hex_to_color_alpha_parsing (fun _ => 0) _ (fun _ => 'z') (by decide)).2
      (by decide)⟩

/-- Claim C3, counterexample: the 7-character input made of a hash, a
minus sign, the digit 1 and four zeros is in the claim's scope, yet
`strtol` parses the first group (minus then 1) as -1, so the red channel
is -1/255 < 0, outside [0, 1]. -/
theorem hex_to_color_negative_channel :
    (['#', '-', '1', '0', '0', '0', '0'] : List Char).length = 7 ∧
    (draw_util_hex_to_color (fun _ => 0) ['#', '-', '1', '0', '0', '0', '0']
      (fun _ => 'z')).red < 0 := by
  constructor
  · rfl
  · have h : (draw_util_hex_to_color (fun _ => 0)
        ['#', '-', '1', '0', '0', '0', '0'] (fun _ => 'z')).red =
        (strtolHex (cstr2 '-' '1') : ℚ) / 255 := rfl
    rw [h, show strtolHex (cstr2 '-' '1') = -1 from by decide]
    norm_num

/-- Claim C3 (amended): for every input string of length at least 7 none of
whose characters 1 through 8 is a minus sign, each of the four channels of
the color returned by `hex_to_color` lies in [0, 1]: each group value is an
at most two-hex-digit `strtol` result in [0, 255], divided by 255. -/
theorem hex_to_color_channels_in_unit (gp : List Char → Nat) (s : List Char)
    (oob : Nat → Char) (_hnull : Char.ofNat 0 ∉ s) (_hlen : 7 ≤ s.length)
    (hm : ∀ i : Nat, 1 ≤ i → i ≤ 8 → cstrGet s oob i ≠ '-') :
    (0 ≤ (draw_util_hex_to_color gp s oob).red ∧
      (draw_util_hex_to_color gp s oob).red ≤ 1) ∧
    (0 ≤ (draw_util_hex_to_color gp s oob).green ∧
      (draw_util_hex_to_color gp s oob).green ≤ 1) ∧
    (0 ≤ (draw_util_hex_to_color gp s oob).blue ∧
      (draw_util_hex_to_color gp s oob).blue ≤ 1) ∧
    (0 ≤ (draw_util_hex_to_color gp s oob).alpha ∧
      (draw_util_hex_to_color gp s oob).alpha ≤ 1) := by
  have b1 := strtolHex_group_bounds (cstrGet s oob 1) (cstrGet s oob 2)
    (hm 1 (by omega) (by omega)) (hm 2 (by omega) (by omega))
  have b2 := strtolHex_group_bounds (cstrGet s oob 3) (cstrGet s oob 4)
    (hm 3 (by omega) (by omega)) (hm 4 (by omega) (by omega))
  have b3 := strtolHex_group_bounds (cstrGet s oob 5) (cstrGet s oob 6)
    (hm 5 (by omega) (by omega)) (hm 6 (by omega) (by omega))
  have b4 := strtolHex_group_bounds
    (if s.length = 9 then cstrGet s oob 7 else 'F')
    (if s.length = 9 then cstrGet s oob 8 else 'F')
    (by
      split_ifs with h9
      · exact hm 7 (by omega) (by omega)
      · decide)
    (by
      split_ifs with h9
      · exact hm 8 (by omega) (by omega)
      · decide)
  refine ⟨?_, ?_, ?_, ?_⟩
  · rw [hex_to_color_red_def]
    exact strtol_div255_mem_unit _ b1.1 b1.2
  · rw [hex_to_color_green_def]
    exact strtol_div255_mem_unit _ b2.1 b2.2
  · rw [hex_to_color_blue_def]
    exact strtol_div255_mem_unit _ b3.1 b3.2
  · rw [hex_to_color_alpha_def]
    exact strtol_div255_mem_unit _ b4.1 b4.2

theorem hex_to_color_channels_in_unit_witness :
    (0 ≤ (draw_util_hex_to_color (fun _ => 0)
        ['#', 'a', 'b', 'c', 'd', 'e', 'f'] (fun _ => 'z')).red ∧
      (draw_util_hex_to_color (fun _ => 0)
        ['#', 'a', 'b', 'c', 'd', 'e', 'f'] (fun _ => 'z')).red ≤ 1) ∧
    (0 ≤ (draw_util_hex_to_color (fun _ => 0)
        ['#', 'a', 'b', 'c', 'd', 'e', 'f'] (fun _ => 'z')).green ∧
      (draw_util_hex_to_color (fun _ => 0)
        ['#', 'a', 'b', 'c', 'd', 'e', 'f'] (fun _ => 'z')).green ≤ 1) ∧
    (0 ≤ (draw_util_hex_to_color (fun _ => 0)
        ['#', 'a', 'b', 'c', 'd', 'e', 'f'] (fun _ => 'z')).blue ∧
      (draw_util_hex_to_color (fun _ => 0)
        ['#', 'a', 'b', 'c', 'd', 'e', 'f'] (fun _ => 'z')).blue ≤ 1) ∧
    (0 ≤ (draw_util_hex_to_color (fun _ => 0)
        ['#', 'a', 'b', 'c', 'd', 'e', 'f'] (fun _ => 'z')).alpha ∧
      (draw_util_hex_to_color (fun _ => 0)
        ['#', 'a', 'b', 'c', 'd', 'e', 'f'] (fun _ => 'z')).alpha ≤ 1) :=
  hex_to_color_channels_in_unit (fun _ => 0)
    ['#', 'a', 'b', 'c', 'd', 'e', 'f'] (fun _ => 'z') (by decide) (by decide)
    (by
      intro i h1 h2
      interval_cases i <;> decide)

/-- Claim C8: the four channels returned by `hex_to_color` depend only on
characters 1 through 8 of the input: two equal-length inputs that agree on
characters 1 through 8 (even with different leading characters, different
surrounding memory and different `get_colorpixel` oracles) get identical
red, green, blue and alpha values. -/
theorem hex_to_color_ignores_leading_char (gp1 gp2 : List Char → Nat)
    (s t : List Char) (oob1 oob2 : Nat → Char)
    (hlen : s.length = t.length)
    (_hdiff : cstrGet s oob1 0 ≠ cstrGet t oob2 0)
    (hagree : ∀ i : Nat, 1 ≤ i → i ≤ 8 → cstrGet s oob1 i = cstrGet t oob2 i) :
    (draw_util_hex_to_color gp1 s oob1).red =
      (draw_util_hex_to_color gp2 t oob2).red ∧
    (draw_util_hex_to_color gp1 s oob1).green =
      (draw_util_hex_to_color gp2 t oob2).green ∧
    (draw_util_hex_to_color gp1 s oob1).blue =
      (draw_util_hex_to_color gp2 t oob2).blue ∧
    (draw_util_hex_to_color gp1 s oob1).alpha =
      (draw_util_hex_to_color gp2 t oob2).alpha := by
  refine ⟨?_, ?_, ?_, ?_⟩
  · rw [hex_to_color_red_def, hex_to_color_red_def,
      hagree 1 (by omega) (by omega), hagree 2 (by omega) (by omega)]
  · rw [hex_to_color_green_def, hex_to_color_green_def,
      hagree 3 (by omega) (by omega), hagree 4 (by omega) (by omega)]
  · rw [hex_to_color_blue_def, hex_to_color_blue_def,
      hagree 5 (by omega) (by omega), hagree 6 (by omega) (by omega)]
  · rw [hex_to_color_alpha_def, hex_to_color_alpha_def, hlen]
    by_cases h9 : t.length = 9
    · rw [if_pos h9, if_pos h9, if_pos h9, if_pos h9,
        hagree 7 (by omega) (by omega), hagree 8 (by omega) (by omega)]
    · rw [if_neg h9, if_neg h9, if_neg h9, if_neg h9]

theorem hex_to_color_ignores_leading_char_witness :
    (draw_util_hex_to_color (fun _ => 0)
        ['#', '1', '2', '3', '4', '5', '6'] (fun _ => 'z')).red =
      (draw_util_hex_to_color (fun _ => 1)
        ['$', '1', '2', '3', '4', '5', '6'] (fun _ => 'z')).red ∧
    (draw_util_hex_to_color (fun _ => 0)
        ['#', '1', '2', '3', '4', '5', '6'] (fun _ => 'z')).green =
      (draw_util_hex_to_color (fun _ => 1)
        ['$', '1', '2', '3', '4', '5', '6'] (fun _ => 'z')).green ∧
    (draw_util_hex_to_color (fun _ => 0)
        ['#', '1', '2', '3', '4', '5', '6'] (fun _ => 'z')).blue =
      (draw_util_hex_to_color (fun _ => 1)
        ['$', '1', '2', '3', '4', '5', '6'] (fun _ => 'z')).blue ∧
    (draw_util_hex_to_color (fun _ => 0)
        ['#', '1', '2', '3', '4', '5', '6'] (fun _ => 'z')).alpha =
      (draw_util_hex_to_color (fun _ => 1)
        ['$', '1', '2', '3', '4', '5', '6'] (fun _ => 'z')).alpha :=
  hex_to_color_ignores_leading_char (fun _ => 0) (fun _ => 1)
    ['#', '1', '2', '3', '4', '5', '6'] ['$', '1', '2', '3', '4', '5', '6']
    (fun _ => 'z') (fun _ => 'z') (by decide) (by decide)
    (by
      intro i h1 h2
      interval_cases i <;> decide)

/-- Claim C5: `draw_util_surface_init` terminates the process, with status
`EXIT_FAILURE` (1), exactly when the checked `xcb_create_gc` request fails;
there is no recovery path, and when the request succeeds the call completes
normally with a surface, in both builds. -/
theorem surface_init_exit_iff (cb : Bool) (gen_id : Nat) (gf : Bool)
    (cs cc : Nat) (s : surface_t) (d : Nat) (w h : Int) :
    ((∃ n, draw_util_surface_init cb gen_id gf cs cc s d w h =
        ProcResult.exited n) ↔ gf = true) ∧
    (draw_util_surface_init cb gen_id gf cs cc s d w h =
        ProcResult.exited 1 ↔ gf = true) ∧
    (gf = false → ∃ s1, draw_util_surface_init cb gen_id gf cs cc s d w h =
        ProcResult.ok s1) := by
  unfold draw_util_surface_init
  cases gf <;> simp

theorem surface_init_exit_iff_witness :
    draw_util_surface_init false 5 true 0 0 ⟨0, 0, 0, 0, 0, 0⟩ 7 3 4 =
      ProcResult.exited 1 ∧
    (∃ s1, draw_util_surface_init false 5 false 0 0 ⟨0, 0, 0, 0, 0, 0⟩ 7 3 4 =
      ProcResult.ok s1) :=
  ⟨(surface_init_exit_iff false 5 true 0 0 ⟨0, 0, 0, 0, 0, 0⟩ 7 3 4).2.1.mpr
      rfl,
    (surface_init_exit_iff false 5 false 0 0 ⟨0, 0, 0, 0, 0, 0⟩ 7 3 4).2.2
      rfl⟩

/-- Claim C10: whenever `draw_util_surface_init` returns normally, the
resulting surface's drawable id, width and height are exactly the given
arguments, in both builds. -/
theorem surface_init_stores_args (cb : Bool) (gen_id : Nat) (gf : Bool)
    (cs cc : Nat) (s : surface_t) (d : Nat) (w h : Int) (s1 : surface_t)
    (hok : draw_util_surface_init cb gen_id gf cs cc s d w h =
      ProcResult.ok s1) :
    s1.id = d ∧ s1.width = w ∧ s1.height = h := by
  unfold draw_util_surface_init at hok
  cases gf
  · simp only [Bool.false_eq_true, if_false] at hok
    cases cb
    · simp only [Bool.false_eq_true, if_false, ProcResult.ok.injEq] at hok
      subst hok
      exact ⟨rfl, rfl, rfl⟩
    · simp only [if_true, ProcResult.ok.injEq] at hok
      subst hok
      exact ⟨rfl, rfl, rfl⟩
  · simp at hok

theorem surface_init_stores_args_witness :
    (⟨7, 5, 3, 4, 0, 0⟩ : surface_t).id = 7 ∧
    (⟨7, 5, 3, 4, 0, 0⟩ : surface_t).width = 3 ∧
    (⟨7, 5, 3, 4, 0, 0⟩ : surface_t).height = 4 :=
  surface_init_stores_args false 5 false 0 0 ⟨0, 0, 0, 0, 0, 0⟩ 7 3 4
    ⟨7, 5, 3, 4, 0, 0⟩ (by decide)

theorem xcb_fill_rect_apply (p : Pixmap α) (rx ry w h : Int) (v : α)
    (x y : Int) :
    xcb_fill_rect p rx ry w h v (x, y) =
      if rx ≤ x ∧ x < rx + w ∧ ry ≤ y ∧ y < ry + h then v else p (x, y) := rfl

theorem clear_xcb_apply (s : surface_t) (col : color_t) (p : Pixmap Nat)
    (x y : Int) :
    draw_util_clear_surface_xcb s col p (x, y) =
      if 0 ≤ x ∧ x < 0 + wrapU16 s.width ∧ 0 ≤ y ∧ y < 0 + wrapU16 s.height
      then col.colorpixel else p (x, y) := rfl

theorem clear_cairo_apply (s : surface_t) (v : α) (p : Pixmap α)
    (x y : Int) :
    draw_util_clear_surface_cairo s v p (x, y) =
      if 0 ≤ x ∧ x < s.width ∧ 0 ≤ y ∧ y < s.height then v else p (x, y) :=
  rfl

theorem copy_cairo_apply (src dest : Pixmap α)
    (sx sy dx dy w h : Int) (x y : Int) :
    draw_util_copy_surface_cairo src dest sx sy dx dy w h (x, y) =
      if dx ≤ x ∧ x < dx + w ∧ dy ≤ y ∧ y < dy + h
      then src (x - (dx - sx), y - sy) else dest (x, y) := rfl

theorem copy_xcb_apply (src dest : Pixmap α) (sx sy dx dy w h : ℚ)
    (x y : Int) :
    draw_util_copy_surface_xcb src dest sx sy dx dy w h (x, y) =
      if i16ofRat dx ≤ x ∧ x < i16ofRat dx + u16ofRat w ∧
          i16ofRat dy ≤ y ∧ y < i16ofRat dy + u16ofRat h
      then src (i16ofRat sx + (x - i16ofRat dx), i16ofRat sy + (y - i16ofRat dy))
      else dest (x, y) := rfl

theorem ratTrunc_zero : ratTrunc 0 = 0 := by
  norm_num [ratTrunc]

theorem ratTrunc_one : ratTrunc 1 = 1 := by
  norm_num [ratTrunc]

theorem i16ofRat_zero : i16ofRat 0 = 0 := by
  rw [i16ofRat, ratTrunc_zero]
  decide

theorem i16ofRat_one : i16ofRat 1 = 1 := by
  rw [i16ofRat, ratTrunc_one]
  decide

theorem u16ofRat_one : u16ofRat 1 = 1 := by
  rw [u16ofRat, ratTrunc_one]
  decide

/-- Claim C9: in the non-cairo build, `copy_surface` issues the copy with
its coordinate arguments reduced to 16 bits: the request it sends is
`xcb_copy_area` on the `double` offsets cast to `int16_t` (truncated, then
reduced modulo 2^16 into [-32768, 32767]) and the width and height cast to
`uint16_t` (truncated, then reduced modulo 2^16 into [0, 65535]), so
arguments outside those ranges wrap instead of matching the requested
region. -/
theorem copy_surface_truncates_16bit (src dest : Pixmap Nat)
    (sx sy dx dy w h : ℚ) :
    draw_util_copy_surface_xcb src dest sx sy dx dy w h =
      xcb_copy_area src dest (i16ofRat sx) (i16ofRat sy) (i16ofRat dx)
        (i16ofRat dy) (u16ofRat w) (u16ofRat h) ∧
    (∀ q : ℚ, -32768 ≤ i16ofRat q ∧ i16ofRat q ≤ 32767 ∧
      i16ofRat q % 65536 = ratTrunc q % 65536) ∧
    (∀ q : ℚ, 0 ≤ u16ofRat q ∧ u16ofRat q ≤ 65535 ∧
      u16ofRat q % 65536 = ratTrunc q % 65536) := by
  refine ⟨rfl, fun q => ?_, fun q => ?_⟩
  · unfold i16ofRat wrapI16
    omega
  · unfold u16ofRat wrapU16
    omega

/-- Claim C6: copying into a destination surface and then clearing it
leaves every pixel of the surface exactly as a single clear does, in both
backends (widths and heights are within the 16-bit drawable range X11
guarantees). -/
theorem clear_after_copy_eq_clear (s : surface_t) (col : color_t)
    (psrc p : Pixmap Nat) (pcsrc pc : Pixmap color_t)
    (sx sy dx dy w h : ℚ) (sxc syc dxc dyc wc hc : Int) (x y : Int)
    (hw0 : 0 ≤ s.width) (hw : s.width < 65536)
    (hh0 : 0 ≤ s.height) (hh : s.height < 65536)
    (hx0 : 0 ≤ x) (hx : x < s.width) (hy0 : 0 ≤ y) (hy : y < s.height) :
    draw_util_clear_surface_xcb s col
        (draw_util_copy_surface_xcb psrc p sx sy dx dy w h) (x, y) =
      draw_util_clear_surface_xcb s col p (x, y) ∧
    draw_util_clear_surface_cairo s col
        (draw_util_copy_surface_cairo pcsrc pc sxc syc dxc dyc wc hc) (x, y) =
      draw_util_clear_surface_cairo s col pc (x, y) := by
  constructor
  · have hcond : (0 : ℤ) ≤ x ∧ x < 0 + wrapU16 s.width ∧
        (0 : ℤ) ≤ y ∧ y < 0 + wrapU16 s.height := by
      unfold wrapU16
      omega
    rw [clear_xcb_apply, clear_xcb_apply, if_pos hcond, if_pos hcond]
  · have hcond : (0 : ℤ) ≤ x ∧ x < s.width ∧ (0 : ℤ) ≤ y ∧ y < s.height :=
      ⟨hx0, hx, hy0, hy⟩
    rw [clear_cairo_apply, clear_cairo_apply, if_pos hcond, if_pos hcond]

theorem clear_after_copy_eq_clear_witness :
    draw_util_clear_surface_xcb ⟨1, 2, 2, 2, 0, 0⟩ ⟨0, 0, 0, 1, 42⟩
        (draw_util_copy_surface_xcb (fun _ => 9) (fun _ => 0) 0 0 0 0 1 1)
        (0, 0) =
      draw_util_clear_surface_xcb ⟨1, 2, 2, 2, 0, 0⟩ ⟨0, 0, 0, 1, 42⟩
        (fun _ => 0) (0, 0) ∧
    draw_util_clear_surface_cairo ⟨1, 2, 2, 2, 0, 0⟩ (⟨0, 0, 0, 1, 42⟩ : color_t)
        (draw_util_copy_surface_cairo (fun _ => ⟨1, 1, 1, 1, 9⟩)
          (fun _ => ⟨0, 0, 0, 1, 0⟩) 0 0 0 0 1 1) (0, 0) =
      draw_util_clear_surface_cairo ⟨1, 2, 2, 2, 0, 0⟩ (⟨0, 0, 0, 1, 42⟩ : color_t)
        (fun _ => ⟨0, 0, 0, 1, 0⟩) (0, 0) :=
  clear_after_copy_eq_clear ⟨1, 2, 2, 2, 0, 0⟩ ⟨0, 0, 0, 1, 42⟩
    (fun _ => 9) (fun _ => 0) (fun _ => ⟨1, 1, 1, 1, 9⟩)
    (fun _ => ⟨0, 0, 0, 1, 0⟩) 0 0 0 0 1 1 0 0 0 0 1 1 0 0
    (by decide) (by decide) (by decide) (by decide)
    (by decide) (by decide) (by decide) (by decide)

/-- Claim C7: the two build-time backends of `copy_surface` do not produce
equivalent output: the cairo path passes `src_y` (instead of
`dest_y - src_y`) as the y offset of the source surface to
`cairo_set_source_surface`, so it reads source row `dest_y + j - src_y`
where the XCB path (`xcb_copy_area`) reads source row `src_y + j`.  At
`src_y = 0`, `dest_y = 1`, width = height = 1, copying from a source whose
row 0 holds 7 and row 1 holds 3, the destination pixel receives 3 on the
cairo path but 7 on the XCB path. -/
theorem copy_surface_backend_divergence :
    draw_util_copy_surface_cairo (fun q => if q.2 = 0 then 7 else 3)
        (fun _ => 0) 0 0 0 1 1 1 (0, 1) = 3 ∧
    draw_util_copy_surface_xcb (fun q => if q.2 = 0 then 7 else 3)
        (fun _ => 0) 0 0 0 1 1 1 (0, 1) = 7 := by
  constructor
  · rw [copy_cairo_apply]
    norm_num
  · rw [copy_xcb_apply, i16ofRat_zero, i16ofRat_one, u16ofRat_one]
    norm_num
